import Mathlib

/-!
Verification of the RethinkDB serializer write pipeline
(src/serializer/serializer.cc) and the table-config datum conversions
(src/clustering/administration/tables/table_config.cc), via a shallow
embedding in Lean 4.  Definitions come first, theorems afterwards.
-/

namespace Serializer

/-- Model of repli_timestamp_t: a logical timestamp with a distinguished
invalid value (repli_timestamp_t::invalid). -/
inductive ReplTimestamp where
  | invalid : ReplTimestamp
  | valid : Nat → ReplTimestamp
deriving DecidableEq, Repr

/-- Model of counted_t of standard_block_token_t: a possibly-empty shared
handle to a physical block version.  none models the default-constructed
(empty) counted_t; some t models a handle to token t. -/
abbrev BlockToken := Option Nat

/-- Model of the action payload of serializer_write_t: the tagged union
over UPDATE / DELETE / TOUCH.  UPDATE carries the buffer, the recency, an
optional per-write io callback identifier and an optional launch callback
identifier; DELETE carries nothing; TOUCH carries the new recency. -/
inductive WriteAction where
  | update (buf : Nat) (recency : ReplTimestamp)
      (ioCallback : Option Nat) (launchCallback : Option Nat)
  | delete
  | touch (recency : ReplTimestamp)
deriving DecidableEq, Repr

/-- Model of serializer_write_t: a block id together with the action. -/
structure SerializerWrite where
  block_id : Nat
  action : WriteAction
deriving DecidableEq, Repr

/-- serializer_write_t::make_update. -/
def SerializerWrite.make_update (block_id : Nat) (recency : ReplTimestamp)
    (buf : Nat) (ioCallback : Option Nat) (launchCallback : Option Nat) :
    SerializerWrite :=
  { block_id := block_id,
    action := WriteAction.update buf recency ioCallback launchCallback }

/-- serializer_write_t::make_delete. -/
def SerializerWrite.make_delete (block_id : Nat) : SerializerWrite :=
  { block_id := block_id, action := WriteAction.delete }

/-- serializer_write_t::make_touch. -/
def SerializerWrite.make_touch (block_id : Nat) (recency : ReplTimestamp) :
    SerializerWrite :=
  { block_id := block_id, action := WriteAction.touch recency }

/-- Model of index_write_op_t: block id plus two optional fields.  The
token and recency fields are optionals that are unset (none) when the
constructor index_write_op_t(block_id) runs and are set only by the code
paths that assign them; an unset field means the index leaves that part
of the entry unmodified. -/
structure IndexWriteOp where
  block_id : Nat
  token : Option BlockToken
  recency : Option ReplTimestamp
deriving DecidableEq, Repr

/-- The constructor index_write_op_t(block_id): both optional fields are
initialized unset. -/
def IndexWriteOp.init (block_id : Nat) : IndexWriteOp :=
  { block_id := block_id, token := none, recency := none }

/-- The token oracle models serializer_t::block_write: handed a buffer
and a block id it synchronously returns the freshly minted block token
(the physical write itself completes asynchronously later). -/
abbrev TokenOracle := Nat → Nat → Nat

/-- Observable events of one do_writes invocation, in program order:
issuing a physical block write (with the index of the write_cond_t
created for it), invoking a launch callback with a token, waiting on a
write_cond_t, and calling serializer_t::index_write with the assembled
batch. -/
inductive Event where
  | issue (condIdx : Nat) (block_id : Nat)
  | launch (block_id : Nat) (token : Nat)
  | wait (condIdx : Nat)
  | indexWrite (ops : List IndexWriteOp)
deriving DecidableEq, Repr

/-- Model of perform_write (serializer.cc:49-69).  Takes the descriptor,
the token oracle standing for ser, and the current list of
write_cond_t indices; returns the extended cond list, the op whose
fields the switch assigned, and the events emitted (issuing the
physical write and invoking the launch callback, for UPDATE). -/
def perform_write (ser : TokenOracle) (write : SerializerWrite)
    (conds : List Nat) (op : IndexWriteOp) :
    List Nat × IndexWriteOp × List Event :=
  match write.action with
  | WriteAction.update buf recency _ioCallback launchCallback =>
      let condIdx := conds.length
      let tok := ser buf op.block_id
      let launchEvents :=
        match launchCallback with
        | some _ => [Event.launch op.block_id tok]
        | none => []
      (conds ++ [condIdx],
       { op with token := some (some tok), recency := some recency },
       Event.issue condIdx op.block_id :: launchEvents)
  | WriteAction.delete =>
      (conds, { op with token := some none,
                        recency := some ReplTimestamp.invalid }, [])
  | WriteAction.touch recency =>
      (conds, { op with recency := some recency }, [])

/-- Step 1 of do_writes (serializer.cc:78-86): fold perform_write over
the descriptors in order, accumulating the write_cond_t list, the
index_write_ops list, and the issue-phase events. -/
def issuePhase (ser : TokenOracle) (writes : List SerializerWrite)
    (conds : List Nat) (ops : List IndexWriteOp) (evs : List Event) :
    List Nat × List IndexWriteOp × List Event :=
  match writes with
  | [] => (conds, ops, evs)
  | w :: rest =>
      let r := perform_write ser w conds (IndexWriteOp.init w.block_id)
      issuePhase ser rest r.1 (ops ++ [r.2.1]) (evs ++ r.2.2)

/-- Model of do_writes (serializer.cc:71-97): issue phase, then a wait
on every write_cond_t in order, then one index_write call with the full
batch.  Returns the complete event trace. -/
def do_writes (ser : TokenOracle) (writes : List SerializerWrite) :
    List Event :=
  let r := issuePhase ser writes [] [] []
  let block_write_conds := r.1
  let index_write_ops := r.2.1
  r.2.2 ++ block_write_conds.map Event.wait
    ++ [Event.indexWrite index_write_ops]

/-- The index_write_ops batch that do_writes hands to index_write. -/
def committedOps (ser : TokenOracle) (writes : List SerializerWrite) :
    List IndexWriteOp :=
  (issuePhase ser writes [] [] []).2.1

/-- The events emitted during the issue phase of do_writes. -/
def issueEvents (ser : TokenOracle) (writes : List SerializerWrite) :
    List Event :=
  (issuePhase ser writes [] [] []).2.2

/-- The write_cond_t list assembled during the issue phase of
do_writes. -/
def issueConds (ser : TokenOracle) (writes : List SerializerWrite) :
    List Nat :=
  (issuePhase ser writes [] [] []).1

/-- The index op that perform_write produces for one descriptor (the op
does not depend on the conds accumulator, only the emitted events do). -/
def opFor (ser : TokenOracle) (w : SerializerWrite) : IndexWriteOp :=
  (perform_write ser w [] (IndexWriteOp.init w.block_id)).2.1

/-- Recognizes the index_write call in an event trace. -/
def isIndexWriteEvent : Event → Bool
  | Event.indexWrite _ => true
  | _ => false

/-! ### Fan-in aggregator: serializer_t::block_writes (serializer.cc:128-157) -/

/-- State of one intermediate_cb_t: its countdown together with the
number of times it has invoked the downstream callee. -/
structure AggState where
  countdown : Nat
  downstreamCalls : Nat
deriving DecidableEq, Repr

/-- intermediate_cb_t::on_io_complete (serializer.cc:133-141): the
guarantee(countdown > 0) is modelled by returning none when violated;
otherwise the countdown is decremented and, on reaching zero, the
downstream callee is invoked (and the aggregator deletes itself). -/
def on_io_complete (s : AggState) : Option AggState :=
  if s.countdown = 0 then none
  else if s.countdown - 1 = 0 then
    some { countdown := 0, downstreamCalls := s.downstreamCalls + 1 }
  else
    some { countdown := s.countdown - 1,
           downstreamCalls := s.downstreamCalls }

/-- Fire a sequence of per-write completions at the aggregator, one
on_io_complete call per list element (the identity of the completing
write is irrelevant to the aggregator's behaviour). -/
def runCompletions {α : Type} (s : AggState) : List α → Option AggState
  | [] => some s
  | _ :: rest =>
      match on_io_complete s with
      | none => none
      | some s2 => runCompletions s2 rest

/-- Model of a block_write_info_t: buffer and block id. -/
structure BlockWriteInfo where
  buf : Nat
  block_id : Nat
deriving DecidableEq, Repr

/-- Result of the synchronous body of serializer_t::block_writes: the
tokens returned, the initial aggregator state, the number of physical
writes issued (each of which will later fire one completion at the
aggregator), and how many times the downstream callback was invoked
during the call itself. -/
structure BlockWritesResult where
  tokens : List Nat
  agg : AggState
  issuedWrites : Nat
  syncDownstreamCalls : Nat
deriving DecidableEq, Repr

/-- Model of serializer_t::block_writes (serializer.cc:128-157): it
allocates an intermediate_cb_t with countdown = write_infos.size() and
callee = cb, then issues one block_write per write_info registering the
intermediate as the completion callback.  Nothing in the body calls
cb->on_io_complete or intermediate->on_io_complete: the downstream
callback can only ever run from a later completion of one of the issued
writes. -/
def block_writes (ser : TokenOracle) (write_infos : List BlockWriteInfo) :
    BlockWritesResult :=
  { tokens := write_infos.map (fun wi => ser wi.buf wi.block_id),
    agg := { countdown := write_infos.length, downstreamCalls := 0 },
    issuedWrites := write_infos.length,
    syncDownstreamCalls := 0 }

end Serializer

namespace DataPtr

/-- Model of serializer_data_ptr_t: the wrapper's ptr_ field, none when
no buffer is owned, some buf when a buffer (abstracted as its contents)
is owned. -/
abbrev PtrState := Option Nat

/-- serializer_data_ptr_t::free (serializer.cc:99-102): rassert that a
buffer is owned (none models the fatal assertion), then reset. -/
def free (p : PtrState) : Option PtrState :=
  if p.isSome then some none else none

/-- serializer_data_ptr_t::init_malloc (serializer.cc:104-107): rassert
that no buffer is owned, then take a fresh buffer from the allocator. -/
def init_malloc (fresh : Nat) (p : PtrState) : Option PtrState :=
  if p.isSome then none else some (some fresh)

/-- serializer_data_ptr_t::init_clone (serializer.cc:109-113): rassert
that the source owns a buffer and that this wrapper does not, then clone
the source's buffer. -/
def init_clone (other : PtrState) (p : PtrState) : Option PtrState :=
  match other with
  | none => none
  | some buf => if p.isSome then none else some (some buf)

/-- One operation on a wrapper: allocate, clone from a given source
wrapper, or release. -/
inductive PtrOp where
  | mallocOp (fresh : Nat)
  | cloneOp (src : PtrState)
  | freeOp
deriving DecidableEq, Repr

/-- Apply one operation to the wrapper state; none is a fatal
assertion. -/
def step (p : PtrState) : PtrOp → Option PtrState
  | PtrOp.mallocOp fresh => init_malloc fresh p
  | PtrOp.cloneOp src => init_clone src p
  | PtrOp.freeOp => free p

/-- Run a sequence of operations on the wrapper; none as soon as any
fatal assertion fires. -/
def runOps (p : PtrState) : List PtrOp → Option PtrState
  | [] => some p
  | op :: rest =>
      match step p op with
      | none => none
      | some p2 => runOps p2 rest

/-- The usage discipline: the operation sequence is a concatenation of
lifecycles, each consisting of exactly one allocation (or clone from a
source that owns a buffer) followed by exactly one release. -/
inductive Disciplined : List PtrOp → Prop
  | nil : Disciplined []
  | malloc (fresh : Nat) (rest : List PtrOp) :
      Disciplined rest →
      Disciplined (PtrOp.mallocOp fresh :: PtrOp.freeOp :: rest)
  | clone (buf : Nat) (rest : List PtrOp) :
      Disciplined rest →
      Disciplined (PtrOp.cloneOp (some buf) :: PtrOp.freeOp :: rest)

end DataPtr

namespace TableConfig

/-- Model of ql::datum_t, restricted to the shapes the shard conversion
handles: strings, arrays and objects.  Any other runtime type is
represented by other, which every conversion rejects. -/
inductive Datum where
  | str (s : String)
  | arr (xs : List Datum)
  | obj (fields : List (String × Datum))
  | other

/-- get_type() == R_ARRAY. -/
def Datum.isArr : Datum → Bool
  | Datum.arr _ => true
  | _ => false

/-- Model of table_config_t::shard_t: the replica set (a std::set of
names, modelled as its strictly sorted element list) and the director
list (a vector of names). -/
structure Shard where
  replica_names : List String
  director_names : List String
deriving DecidableEq, Repr

/-- Modelled from the spec: convert_name_to_datum lives in the
datum_adapter collaborator outside src/; a name prints as its string
datum. -/
def convert_name_to_datum (name : String) : Datum :=
  Datum.str name

/-- Modelled from the spec: convert_name_from_datum lives in the
datum_adapter collaborator outside src/; it accepts a string datum and
yields the name; any other datum is an error (none). -/
def convert_name_from_datum : Datum → Option String
  | Datum.str s => some s
  | _ => none

/-- Modelled from the spec: convert_set_to_datum lives in the
datum_adapter collaborator outside src/; it iterates the std::set in its
sorted order and converts each element; the result is an array datum. -/
def convert_set_to_datum (conv : String → Datum) (s : List String) :
    Datum :=
  Datum.arr (s.map conv)

/-- Modelled from the spec: convert_vector_to_datum lives in the
datum_adapter collaborator outside src/; it converts each element in
order into an array datum. -/
def convert_vector_to_datum (conv : String → Datum) (v : List String) :
    Datum :=
  Datum.arr (v.map conv)

/-- The element loop shared by the collection converters: convert each
element in order, failing as soon as one element conversion fails. -/
def convertEach (conv : Datum → Option String) :
    List Datum → Option (List String)
  | [] => some []
  | d :: rest =>
      match conv d with
      | none => none
      | some s =>
          match convertEach conv rest with
          | none => none
          | some ss => some (s :: ss)

/-- Modelled from the spec: convert_vector_from_datum lives in the
datum_adapter collaborator outside src/; the datum must be an array;
convert each element in order, failing if any element conversion
fails. -/
def convert_vector_from_datum (conv : Datum → Option String) :
    Datum → Option (List String)
  | Datum.arr xs => convertEach conv xs
  | _ => none

/-- Modelled from the spec: convert_set_from_datum lives in the
datum_adapter collaborator outside src/; with allow_duplicates = false
(as table_config.cc:49 passes it) the datum must be an array; each
element is converted; inserting a duplicate into the set is an error;
the resulting std::set holds the parsed elements in sorted order. -/
def convert_set_from_datum (conv : Datum → Option String) :
    Datum → Option (List String)
  | Datum.arr xs =>
      match convertEach conv xs with
      | none => none
      | some parsed =>
          if parsed.Nodup then
            some (parsed.insertionSort (fun a b => a ≤ b))
          else none
  | _ => none

/-- Modelled from the spec: converter_from_datum_object_t::init lives
in the datum_adapter collaborator outside src/; the datum must be an
object; the converter then serves field lookups on it. -/
def converterInit : Datum → Option (List (String × Datum))
  | Datum.obj fields => some fields
  | _ => none

/-- Modelled from the spec: converter_from_datum_object_t::get lives in
the datum_adapter collaborator outside src/; it looks the key up among
the object fields. -/
def converterGet (fields : List (String × Datum)) (key : String) :
    Option Datum :=
  match fields.find? (fun kv => kv.1 = key) with
  | some kv => some kv.2
  | none => none

/-- Modelled from the spec: converter_from_datum_object_t::check_no_extra_keys lives in the datum_adapter collaborator outside
src/; for the shard conversion, after get("replicas") and
get("directors") every key of the object must be one of those two. -/
def check_no_extra_keys (fields : List (String × Datum)) : Bool :=
  fields.all (fun kv => kv.1 = "replicas" ∨ kv.1 = "directors")

/-- The director validation loop (table_config.cc:83-96): every director
must occur exactly once in the replica set and must not have been seen
earlier in the director list. -/
def directorsCheck (replica_names : List String) :
    List String → List String → Bool
  | _seen, [] => true
  | seen, d :: rest =>
      if replica_names.count d ≠ 1 then false
      else if seen.contains d then false
      else directorsCheck replica_names (d :: seen) rest

/-- convert_table_config_shard_to_datum (table_config.cc:10-23). -/
def convert_table_config_shard_to_datum (shard : Shard) : Datum :=
  Datum.obj
    [("replicas",
        convert_set_to_datum convert_name_to_datum shard.replica_names),
     ("directors",
        convert_vector_to_datum convert_name_to_datum
          shard.director_names)]

/-- convert_table_config_shard_from_datum (table_config.cc:25-99),
following the source's check order; none models every return-false
path. -/
def convert_table_config_shard_from_datum (datum : Datum) :
    Option Shard :=
  match converterInit datum with
  | none => none
  | some fields =>
    match converterGet fields "replicas" with
    | none => none
    | some replica_names_datum =>
      if ¬replica_names_datum.isArr then none
      else
        match convert_set_from_datum convert_name_from_datum
            replica_names_datum with
        | none => none
        | some replica_names =>
          if replica_names.isEmpty then none
          else
            match converterGet fields "directors" with
            | none => none
            | some director_names_datum =>
              match convert_vector_from_datum convert_name_from_datum
                  director_names_datum with
              | none => none
              | some director_names =>
                if director_names.isEmpty then none
                else if ¬check_no_extra_keys fields then none
                else if directorsCheck replica_names [] director_names then
                  some { replica_names := replica_names,
                         director_names := director_names }
                else none

end TableConfig

namespace WriteRow

/-- The outcomes of the fallible collaborators and branch conditions
that table_config_artificial_table_backend_t::write_row consults, in
source order (table_config.cc:219-385).  Each field abstracts one
boolean decision point of the function body. -/
structure Env where
  /-- convert_uuid_from_datum(primary_key, ...) succeeded. -/
  pkey_valid : Bool
  /-- the pkey_was_autogenerated argument. -/
  pkey_was_autogenerated : Bool
  /-- search_metadata_by_uuid found the table. -/
  existed_before : Bool
  /-- new_value.has(): an insert/update rather than a delete. -/
  new_value_has : Bool
  /-- convert_table_config_and_name_from_datum succeeded. -/
  parse_ok : Bool
  /-- guarantee(new_table_id == table_id) holds. -/
  table_id_matches : Bool
  /-- guarantee(namespaces.count(table_id) == 0) holds (no UUID
  collision with a deleted table). -/
  no_uuid_collision : Bool
  /-- the new db name equals the existing table's db name. -/
  db_name_matches : Bool
  /-- get_db_id succeeded for the new table's db. -/
  get_db_id_ok : Bool
  /-- the new primary key equals the existing one. -/
  primary_key_matches : Bool
  /-- calculate_split_points_intelligently succeeded. -/
  split_ok : Bool
  /-- the new config has exactly one shard. -/
  one_shard : Bool
  /-- the table name differs from the old name. -/
  name_changed : Bool
  /-- find_uniq reported a name conflict (status != METADATA_ERR_NONE). -/
  name_collision : Bool
deriving DecidableEq, Repr

/-- Model of write_row (table_config.cc:219-385).  The value is none
when a guarantee fails (fatal), otherwise some (ret, joined) where ret
is the boolean return value and joined records whether control reached
table_sl_view->join(md) (line 382). -/
def write_row (e : Env) : Option (Bool × Bool) :=
  if ¬e.pkey_valid ∧ e.pkey_was_autogenerated then none
  else if e.new_value_has then
    if ¬e.parse_ok then some (false, false)
    else if ¬e.table_id_matches then none
    else if e.existed_before ∧ e.pkey_was_autogenerated then none
    else if ¬e.existed_before ∧ ¬e.pkey_was_autogenerated then
      some (false, false)
    else if ¬e.existed_before ∧ ¬e.no_uuid_collision then none
    else if e.existed_before ∧ ¬e.db_name_matches then some (false, false)
    else if ¬e.existed_before ∧ ¬e.get_db_id_ok then some (false, false)
    else if e.existed_before ∧ ¬e.primary_key_matches then
      some (false, false)
    else if e.existed_before ∧ ¬e.split_ok then some (false, false)
    else if ¬e.existed_before ∧ ¬e.one_shard then some (false, false)
    else if (¬e.existed_before ∨ e.name_changed) ∧ e.name_collision then
      some (false, false)
    else some (true, true)
  else
    if e.existed_before ∧ e.pkey_was_autogenerated then none
    else some (true, true)

end WriteRow

/-! ### Concrete instances used by witness theorems -/

/-- A concrete token oracle for witness instantiations. -/
def exampleOracle : Serializer.TokenOracle := fun buf bid => buf + 10 * bid

/-- A concrete three-element write_infos batch. -/
def exampleInfos : List Serializer.BlockWriteInfo :=
  [{ buf := 1, block_id := 10 }, { buf := 2, block_id := 20 },
   { buf := 3, block_id := 30 }]

/-- A concrete completion order for the three writes of exampleInfos:
the second completes first, then the first, then the third. -/
def exampleFires : List (Fin exampleInfos.length) :=
  [⟨1, by decide⟩, ⟨0, by decide⟩, ⟨2, by decide⟩]

/-- A concrete batch for pipeline witnesses: one UPDATE with a launch
callback, one DELETE, one TOUCH. -/
def exampleWrites : List Serializer.SerializerWrite :=
  [Serializer.SerializerWrite.make_update 1 (Serializer.ReplTimestamp.valid 5)
      7 none (some 0),
   Serializer.SerializerWrite.make_delete 2,
   Serializer.SerializerWrite.make_touch 3 (Serializer.ReplTimestamp.valid 9)]

/-- A concrete write_row environment on the all-checks-pass path for an
existing table. -/
def exampleEnv : WriteRow.Env :=
  { pkey_valid := true, pkey_was_autogenerated := false,
    existed_before := true, new_value_has := true, parse_ok := true,
    table_id_matches := true, no_uuid_collision := true,
    db_name_matches := true, get_db_id_ok := true,
    primary_key_matches := true, split_ok := true, one_shard := true,
    name_changed := false, name_collision := false }

/-- A concrete shard for the roundtrip witness. -/
def exampleShard : TableConfig.Shard :=
  { replica_names := ["a", "b"], director_names := ["a"] }

/-! ## Theorems -/

namespace Serializer

/-- perform_write never changes the block id the op was constructed
with. -/
theorem perform_write_block_id (ser : TokenOracle) (w : SerializerWrite)
    (conds : List Nat) (op : IndexWriteOp) :
    (perform_write ser w conds op).2.1.block_id = op.block_id := by
  cases h : w.action <;> simp [perform_write, h]

/-- The op perform_write produces does not depend on the conds
accumulator. -/
theorem perform_write_op_conds_irrel (ser : TokenOracle)
    (w : SerializerWrite) (conds : List Nat) (op : IndexWriteOp) :
    (perform_write ser w conds op).2.1 = (perform_write ser w [] op).2.1 := by
  cases h : w.action <;> simp [perform_write, h]

/-- The events perform_write emits are never an index_write call. -/
theorem perform_write_no_commit (ser : TokenOracle) (w : SerializerWrite)
    (conds : List Nat) (op : IndexWriteOp) :
    ∀ e ∈ (perform_write ser w conds op).2.2, isIndexWriteEvent e = false := by
  cases h : w.action with
  | update buf recency ioCb launchCb =>
      cases launchCb <;>
        simp [perform_write, h, isIndexWriteEvent]
  | delete => simp [perform_write, h]
  | touch recency => simp [perform_write, h]

/-- The issue phase appends to the ops accumulator exactly one op per
descriptor, in input order: the op perform_write builds for it. -/
theorem issuePhase_ops (ser : TokenOracle) :
    ∀ (writes : List SerializerWrite) (conds : List Nat)
      (ops : List IndexWriteOp) (evs : List Event),
    (issuePhase ser writes conds ops evs).2.1
      = ops ++ writes.map (opFor ser) := by
  intro writes
  induction writes with
  | nil => intro conds ops evs; simp [issuePhase]
  | cons w rest ih =>
      intro conds ops evs
      rw [issuePhase, ih]
      simp [opFor, perform_write_op_conds_irrel]

/-- The issue phase emits no index_write event beyond those already in
the accumulator. -/
theorem issuePhase_no_commit (ser : TokenOracle) :
    ∀ (writes : List SerializerWrite) (conds : List Nat)
      (ops : List IndexWriteOp) (evs : List Event),
    ((issuePhase ser writes conds ops evs).2.2).countP isIndexWriteEvent
      = evs.countP isIndexWriteEvent := by
  intro writes
  induction writes with
  | nil => intro conds ops evs; simp [issuePhase]
  | cons w rest ih =>
      intro conds ops evs
      rw [issuePhase, ih, List.countP_append]
      have h := perform_write_no_commit ser w conds
        (IndexWriteOp.init w.block_id)
      have hz : ((perform_write ser w conds
          (IndexWriteOp.init w.block_id)).2.2).countP isIndexWriteEvent = 0 := by
        rw [List.countP_eq_zero]
        intro e he
        simpa using h e he
      rw [hz]
      exact Nat.add_zero _

/-- The conds accumulator only grows during the issue phase. -/
theorem issuePhase_conds_mono (ser : TokenOracle) :
    ∀ (writes : List SerializerWrite) (conds : List Nat)
      (ops : List IndexWriteOp) (evs : List Event) (c : Nat),
    c ∈ conds → c ∈ (issuePhase ser writes conds ops evs).1 := by
  intro writes
  induction writes with
  | nil => intro conds ops evs c hc; simpa [issuePhase] using hc
  | cons w rest ih =>
      intro conds ops evs c hc
      rw [issuePhase]
      apply ih
      cases h : w.action <;> simp [perform_write, h] <;>
        first
        | exact hc
        | exact Or.inl hc

/-- The events accumulator only grows during the issue phase. -/
theorem issuePhase_evs_mono (ser : TokenOracle) :
    ∀ (writes : List SerializerWrite) (conds : List Nat)
      (ops : List IndexWriteOp) (evs : List Event) (e : Event),
    e ∈ evs → e ∈ (issuePhase ser writes conds ops evs).2.2 := by
  intro writes
  induction writes with
  | nil => intro conds ops evs e he; simpa [issuePhase] using he
  | cons w rest ih =>
      intro conds ops evs e he
      rw [issuePhase]
      apply ih
      exact List.mem_append_left _ he

/-- Every physical-write issue event emitted by the issue phase carries
the index of a write_cond_t that is in the final conds list. -/
theorem issuePhase_issue_cond_mem (ser : TokenOracle) :
    ∀ (writes : List SerializerWrite) (conds : List Nat)
      (ops : List IndexWriteOp) (evs : List Event) (c b : Nat),
    Event.issue c b ∈ (issuePhase ser writes conds ops evs).2.2 →
    Event.issue c b ∈ evs ∨ c ∈ (issuePhase ser writes conds ops evs).1 := by
  intro writes
  induction writes with
  | nil => intro conds ops evs c b h; exact Or.inl (by simpa [issuePhase] using h)
  | cons w rest ih =>
      intro conds ops evs c b h
      rw [issuePhase] at h ⊢
      rcases ih _ _ _ c b h with hmem | hfinal
      · rcases List.mem_append.mp hmem with hevs | hnew
        · exact Or.inl hevs
        · right
          apply issuePhase_conds_mono
          cases ha : w.action with
          | update buf recency ioCb launchCb =>
              cases launchCb <;>
                simp [perform_write, ha] at hnew ⊢ <;>
                  simp [hnew.1]
          | delete => simp [perform_write, ha] at hnew
          | touch recency => simp [perform_write, ha] at hnew
      · exact Or.inr hfinal

/-- opFor of an UPDATE descriptor: the committed op carries the block
id, the token minted by block_write, and the descriptor's recency. -/
theorem opFor_make_update (ser : TokenOracle) (b : Nat)
    (rec : ReplTimestamp) (buf : Nat) (ioCb lc : Option Nat) :
    opFor ser (SerializerWrite.make_update b rec buf ioCb lc)
      = { block_id := b, token := some (some (ser buf b)),
          recency := some rec } := by
  simp [opFor, perform_write, SerializerWrite.make_update, IndexWriteOp.init]

/-- If an UPDATE descriptor with a launch callback occurs in the batch,
the issue phase emits the launch event with the minted token. -/
theorem issuePhase_launch_mem (ser : TokenOracle) :
    ∀ (writes : List SerializerWrite) (conds : List Nat)
      (ops : List IndexWriteOp) (evs : List Event)
      (w : SerializerWrite) (buf : Nat) (rec : ReplTimestamp)
      (ioCb : Option Nat) (lc : Nat),
    w ∈ writes → w.action = WriteAction.update buf rec ioCb (some lc) →
    Event.launch w.block_id (ser buf w.block_id)
      ∈ (issuePhase ser writes conds ops evs).2.2 := by
  intro writes
  induction writes with
  | nil => intro conds ops evs w buf rec ioCb lc hw; cases hw
  | cons w0 rest ih =>
      intro conds ops evs w buf rec ioCb lc hw ha
      rw [issuePhase]
      rcases List.mem_cons.mp hw with rfl | hrest
      · apply issuePhase_evs_mono
        apply List.mem_append_right
        simp [perform_write, ha, IndexWriteOp.init]
      · exact ih _ _ _ w buf rec ioCb lc hrest ha

/-- The full event trace of do_writes decomposes into the issue-phase
events, one wait per synchronizer, and the final index_write call. -/
theorem do_writes_decomposition (ser : TokenOracle)
    (writes : List SerializerWrite) :
    do_writes ser writes
      = issueEvents ser writes ++ (issueConds ser writes).map Event.wait
        ++ [Event.indexWrite (committedOps ser writes)] := rfl

/-- The committed batch is exactly one op per descriptor, in order. -/
theorem committedOps_eq (ser : TokenOracle)
    (writes : List SerializerWrite) :
    committedOps ser writes = writes.map (opFor ser) := by
  rw [committedOps, issuePhase_ops]
  simp

/-- The trace of one do_writes invocation holds exactly one index_write
call. -/
theorem do_writes_commit_count (ser : TokenOracle)
    (writes : List SerializerWrite) :
    (do_writes ser writes).countP isIndexWriteEvent = 1 := by
  rw [do_writes_decomposition, List.countP_append, List.countP_append]
  have h1 : (issueEvents ser writes).countP isIndexWriteEvent = 0 := by
    rw [issueEvents, issuePhase_no_commit]
    simp
  have h2 : ((issueConds ser writes).map Event.wait).countP
      isIndexWriteEvent = 0 := by
    rw [List.countP_eq_zero]
    intro e he
    rcases List.mem_map.mp he with ⟨c, _, rfl⟩
    simp [isIndexWriteEvent]
  rw [h1, h2]
  simp [isIndexWriteEvent]

/-- C1: every do_writes invocation calls index_write exactly once, with
exactly one index write operation per input descriptor (updates, deletes
and touches alike), collected in input order, each operation carrying
the corresponding descriptor's block identifier. -/
theorem do_writes_one_commit_one_op_per_descriptor (ser : TokenOracle)
    (writes : List SerializerWrite) :
    (do_writes ser writes).countP isIndexWriteEvent = 1
    ∧ Event.indexWrite (committedOps ser writes) ∈ do_writes ser writes
    ∧ committedOps ser writes = writes.map (opFor ser)
    ∧ (committedOps ser writes).length = writes.length
    ∧ (committedOps ser writes).map IndexWriteOp.block_id
        = writes.map SerializerWrite.block_id := by
  have hops := committedOps_eq ser writes
  refine ⟨do_writes_commit_count ser writes, ?_, hops, ?_, ?_⟩
  · rw [do_writes_decomposition]
    exact List.mem_append_right _ (List.mem_singleton.mpr rfl)
  · rw [hops]; simp
  · rw [hops, List.map_map]
    apply List.map_congr_left
    intro w _
    simp [Function.comp, opFor, perform_write_block_id, IndexWriteOp.init]

/-- C2: within one do_writes invocation the index commit is the last
event of the trace and is unique, and every synchronizer created in the
issue phase — in particular the one of every issued physical write — is
waited on strictly before it. -/
theorem do_writes_commit_after_all_waits (ser : TokenOracle)
    (writes : List SerializerWrite) :
    (do_writes ser writes).getLast?
        = some (Event.indexWrite (committedOps ser writes))
    ∧ (do_writes ser writes).countP isIndexWriteEvent = 1
    ∧ (∀ c ∈ issueConds ser writes,
        Event.wait c ∈ (do_writes ser writes).dropLast)
    ∧ ∀ c b : Nat, Event.issue c b ∈ do_writes ser writes →
        Event.wait c ∈ (do_writes ser writes).dropLast := by
  have hdecomp := do_writes_decomposition ser writes
  have hdrop : (do_writes ser writes).dropLast
      = issueEvents ser writes ++ (issueConds ser writes).map Event.wait := by
    rw [hdecomp, List.dropLast_concat]
  have hwait : ∀ c ∈ issueConds ser writes,
      Event.wait c ∈ (do_writes ser writes).dropLast := by
    intro c hc
    rw [hdrop]
    exact List.mem_append_right _ (List.mem_map_of_mem Event.wait hc)
  refine ⟨?_, ?_, hwait, ?_⟩
  · rw [hdecomp, List.getLast?_concat]
  · exact do_writes_commit_count ser writes
  · intro c b hmem
    apply hwait
    rw [hdecomp] at hmem
    rcases List.mem_append.mp hmem with hmem2 | hlast
    · rcases List.mem_append.mp hmem2 with hissue | hw
      · rcases issuePhase_issue_cond_mem ser writes [] [] [] c b hissue with
          h0 | hc
        · cases h0
        · exact hc
      · rcases List.mem_map.mp hw with ⟨c2, _, heq⟩
        cases heq
    · rcases List.mem_singleton.mp hlast with heq
      cases heq

/-- C5: for a DELETE descriptor, the committed index op has the empty
block token and the distinguished invalid recency, and perform_write
issues no physical write and creates no synchronizer for it: the conds
list is unchanged, no event is emitted, and only the token and recency
fields of the op are assigned. -/
theorem delete_descriptor_no_write (ser : TokenOracle)
    (writes : List SerializerWrite) (i b : Nat)
    (h : writes.get? i = some (SerializerWrite.make_delete b)) :
    (committedOps ser writes).get? i
      = some { block_id := b, token := some none,
               recency := some ReplTimestamp.invalid }
    ∧ ∀ (conds : List Nat) (op : IndexWriteOp),
        perform_write ser (SerializerWrite.make_delete b) conds op
          = (conds, { op with token := some none,
                              recency := some ReplTimestamp.invalid }, []) := by
  constructor
  · have hops := committedOps_eq ser writes
    rw [hops, List.get?_map, h]
    simp [opFor, perform_write, SerializerWrite.make_delete, IndexWriteOp.init]
  · intro conds op
    simp [perform_write, SerializerWrite.make_delete]

/-- C6: for a TOUCH descriptor, perform_write assigns only the recency
field of the op — the token field is left unmodified (unset in the
committed op, since the constructor leaves it unset) — and no physical
write is issued and no synchronizer is created. -/
theorem touch_descriptor_recency_only (ser : TokenOracle)
    (writes : List SerializerWrite) (i b : Nat) (rec : ReplTimestamp)
    (h : writes.get? i = some (SerializerWrite.make_touch b rec)) :
    (committedOps ser writes).get? i
      = some { block_id := b, token := none, recency := some rec }
    ∧ ∀ (conds : List Nat) (op : IndexWriteOp),
        perform_write ser (SerializerWrite.make_touch b rec) conds op
          = (conds, { op with recency := some rec }, []) := by
  constructor
  · have hops := committedOps_eq ser writes
    rw [hops, List.get?_map, h]
    simp [opFor, perform_write, SerializerWrite.make_touch, IndexWriteOp.init]
  · intro conds op
    simp [perform_write, SerializerWrite.make_touch]

/-- C7: for an UPDATE descriptor carrying a launch callback, the launch
callback is invoked during the issue phase — hence before every wait and
before the commit, by the trace decomposition — and receives exactly the
token recorded in the index write operation committed for that
descriptor. -/
theorem update_launch_callback_token (ser : TokenOracle)
    (writes : List SerializerWrite) (i b buf : Nat)
    (rec : ReplTimestamp) (ioCb : Option Nat) (lc : Nat)
    (h : writes.get? i
      = some (SerializerWrite.make_update b rec buf ioCb (some lc))) :
    ∃ t : Nat,
      (committedOps ser writes).get? i
        = some { block_id := b, token := some (some t), recency := some rec }
      ∧ Event.launch b t ∈ issueEvents ser writes
      ∧ do_writes ser writes
          = issueEvents ser writes
            ++ (issueConds ser writes).map Event.wait
            ++ [Event.indexWrite (committedOps ser writes)] := by
  refine ⟨ser buf b, ?_, ?_, do_writes_decomposition ser writes⟩
  · have hops := committedOps_eq ser writes
    rw [hops, List.get?_map, h]
    simp [opFor_make_update]
  · have hw : SerializerWrite.make_update b rec buf ioCb (some lc) ∈ writes :=
      List.get?_mem h
    have := issuePhase_launch_mem ser writes [] [] []
      (SerializerWrite.make_update b rec buf ioCb (some lc)) buf rec ioCb lc
      hw rfl
    simpa [issueEvents, SerializerWrite.make_update] using this

/-- C2 witness: in the concrete three-descriptor batch the physical
write of block 1 is issued with synchronizer 0, which is waited on
before the final commit. -/
theorem do_writes_commit_after_all_waits_witness :
    Event.issue 0 1 ∈ do_writes exampleOracle exampleWrites
    ∧ Event.wait 0 ∈ (do_writes exampleOracle exampleWrites).dropLast :=
  ⟨by decide,
   (do_writes_commit_after_all_waits exampleOracle exampleWrites).2.2.2 0 1
     (by decide)⟩

/-- C5 witness: the DELETE of block 2 in the concrete batch. -/
theorem delete_descriptor_no_write_witness :
    exampleWrites.get? 1 = some (SerializerWrite.make_delete 2)
    ∧ (committedOps exampleOracle exampleWrites).get? 1
        = some { block_id := 2, token := some none,
                 recency := some ReplTimestamp.invalid } :=
  ⟨by decide,
   (delete_descriptor_no_write exampleOracle exampleWrites 1 2 (by decide)).1⟩

/-- C6 witness: the TOUCH of block 3 in the concrete batch. -/
theorem touch_descriptor_recency_only_witness :
    exampleWrites.get? 2
        = some (SerializerWrite.make_touch 3 (ReplTimestamp.valid 9))
    ∧ (committedOps exampleOracle exampleWrites).get? 2
        = some { block_id := 3, token := none,
                 recency := some (ReplTimestamp.valid 9) } :=
  ⟨by decide,
   (touch_descriptor_recency_only exampleOracle exampleWrites 2 3
      (ReplTimestamp.valid 9) (by decide)).1⟩

/-- C7 witness: the UPDATE of block 1 in the concrete batch carries a
launch callback; it is invoked during the issue phase with the token
committed for that descriptor. -/
theorem update_launch_callback_token_witness :
    exampleWrites.get? 0
        = some (SerializerWrite.make_update 1 (ReplTimestamp.valid 5) 7
            none (some 0))
    ∧ ∃ t : Nat,
        (committedOps exampleOracle exampleWrites).get? 0
          = some { block_id := 1, token := some (some t),
                   recency := some (ReplTimestamp.valid 5) }
        ∧ Event.launch 1 t ∈ issueEvents exampleOracle exampleWrites
        ∧ do_writes exampleOracle exampleWrites
            = issueEvents exampleOracle exampleWrites
              ++ (issueConds exampleOracle exampleWrites).map Event.wait
              ++ [Event.indexWrite (committedOps exampleOracle
                    exampleWrites)] :=
  ⟨by decide,
   update_launch_callback_token exampleOracle exampleWrites 0 1 7
     (ReplTimestamp.valid 5) none 0 (by decide)⟩

/-- Firing fewer completions than the countdown leaves the downstream
callee uninvoked and the countdown at the remaining count. -/
theorem runCompletions_short {α : Type} :
    ∀ (l : List α) (n calls : Nat), l.length < n →
    runCompletions { countdown := n, downstreamCalls := calls } l
      = some { countdown := n - l.length, downstreamCalls := calls } := by
  intro l
  induction l with
  | nil => intro n calls h; simp [runCompletions]
  | cons x rest ih =>
      intro n calls h
      have hn : n ≠ 0 := by
        intro h0; rw [h0] at h; exact Nat.not_lt_zero _ h
      have hn1 : ¬(n - 1 = 0) := by
        simp at h
        omega
      rw [runCompletions]
      simp only [on_io_complete, if_neg hn, if_neg hn1]
      rw [ih (n - 1) calls (by simp at h; omega)]
      congr 1
      simp
      omega

/-- Firing exactly countdown-many completions, for a positive countdown,
invokes the downstream callee exactly once and ends at countdown 0. -/
theorem runCompletions_complete {α : Type} :
    ∀ (l : List α) (n calls : Nat), l.length = n → 0 < n →
    runCompletions { countdown := n, downstreamCalls := calls } l
      = some { countdown := 0, downstreamCalls := calls + 1 } := by
  intro l
  induction l with
  | nil =>
      intro n calls h hpos
      simp at h
      omega
  | cons x rest ih =>
      intro n calls h hpos
      have hn : n ≠ 0 := Nat.pos_iff_ne_zero.mp hpos
      rw [runCompletions]
      by_cases h1 : n - 1 = 0
      · have hrest : rest = [] := by
          have : rest.length = 0 := by simp at h; omega
          exact List.length_eq_zero.mp this
        simp only [on_io_complete, if_neg hn, if_pos h1]
        rw [hrest]
        rfl
      · simp only [on_io_complete, if_neg hn, if_neg h1]
        apply ih
        · simp at h; omega
        · omega

/-- C3 (code contradicts the spec here): serializer_t::block_writes on
an empty write_infos list issues no physical write and never invokes the
downstream callback — not during the call, and not afterwards either,
since no completion can ever fire at the aggregator (any attempt would
violate the guarantee, and every surviving run keeps downstreamCalls at
0).  The spec demands the downstream callback fire immediately. -/
theorem block_writes_empty_downstream_never (ser : TokenOracle) :
    (block_writes ser []).issuedWrites = 0
    ∧ (block_writes ser []).syncDownstreamCalls = 0
    ∧ (block_writes ser []).agg
        = { countdown := 0, downstreamCalls := 0 }
    ∧ ∀ (l : List Nat) (s : AggState),
        runCompletions (block_writes ser []).agg l = some s →
        s.downstreamCalls = 0 := by
  refine ⟨rfl, rfl, rfl, ?_⟩
  intro l s h
  cases l with
  | nil =>
      simp [runCompletions, block_writes] at h
      rw [← h]
  | cons x rest =>
      simp [runCompletions, block_writes, on_io_complete] at h

/-- C3 witness: the degenerate empty completion sequence. -/
theorem block_writes_empty_downstream_never_witness :
    runCompletions (block_writes exampleOracle []).agg ([] : List Nat)
        = some { countdown := 0, downstreamCalls := 0 }
    ∧ ({ countdown := 0, downstreamCalls := 0 } : AggState).downstreamCalls
        = 0 :=
  ⟨rfl, (block_writes_empty_downstream_never exampleOracle).2.2.2 [] _ rfl⟩

/-- C4: for a batch of N ≥ 1 writes, firing the N per-write completions
of the intermediate_cb_t in any order invokes the downstream callback
exactly once — only by the completion that brings the countdown to zero,
every strict prefix of the firing sequence leaving it uninvoked — and
permuting the completion order leaves the outcome unchanged. -/
theorem block_writes_aggregator_fires_once (ser : TokenOracle)
    (write_infos : List BlockWriteInfo)
    (hn : 1 ≤ write_infos.length)
    (fires : List (Fin write_infos.length))
    (hperm : fires.Perm (List.finRange write_infos.length)) :
    runCompletions (block_writes ser write_infos).agg fires
      = some { countdown := 0, downstreamCalls := 1 }
    ∧ (∀ pre post : List (Fin write_infos.length),
        pre ++ post = fires → post ≠ [] →
        runCompletions (block_writes ser write_infos).agg pre
          = some { countdown := write_infos.length - pre.length,
                   downstreamCalls := 0 })
    ∧ ∀ fires2 : List (Fin write_infos.length),
        fires2.Perm fires →
        runCompletions (block_writes ser write_infos).agg fires2
          = runCompletions (block_writes ser write_infos).agg fires := by
  have hlen : fires.length = write_infos.length := by
    rw [hperm.length_eq, List.length_finRange]
  have hagg : (block_writes ser write_infos).agg
      = { countdown := write_infos.length, downstreamCalls := 0 } := rfl
  have hfull : runCompletions (block_writes ser write_infos).agg fires
      = some { countdown := 0, downstreamCalls := 1 } := by
    rw [hagg, runCompletions_complete fires write_infos.length 0 hlen hn]
  refine ⟨hfull, ?_, ?_⟩
  · intro pre post hsplit hpost
    have hlt : pre.length < write_infos.length := by
      have : pre.length + post.length = fires.length := by
        rw [← hsplit]; simp
      have hp : 0 < post.length := List.length_pos.mpr hpost
      omega
    rw [hagg, runCompletions_short pre write_infos.length 0 hlt]
  · intro fires2 hperm2
    have hlen2 : fires2.length = write_infos.length := by
      rw [hperm2.length_eq, hlen]
    rw [hfull, hagg,
        runCompletions_complete fires2 write_infos.length 0 hlen2 hn]

/-- C4 witness: three writes completing in the order 2nd, 1st, 3rd. -/
theorem block_writes_aggregator_fires_once_witness :
    (1 ≤ exampleInfos.length)
    ∧ exampleFires.Perm (List.finRange exampleInfos.length)
    ∧ runCompletions (block_writes exampleOracle exampleInfos).agg
        exampleFires = some { countdown := 0, downstreamCalls := 1 } :=
  ⟨by decide, by decide,
   (block_writes_aggregator_fires_once exampleOracle exampleInfos
      (by decide) exampleFires (by decide)).1⟩

end Serializer

namespace DataPtr

/-- C8: the ownership wrapper's fatal assertions fire exactly on the
contract violations — free without an owned buffer, init_malloc on an
owned wrapper, init_clone from an empty source or onto an owned
wrapper — and under the discipline of exactly one allocate/clone before
exactly one release, starting unowned, no assertion is ever reached. -/
theorem data_ptr_assert_guards (p : PtrState) :
    (free p = none ↔ p = none)
    ∧ (∀ fresh : Nat, init_malloc fresh p = none ↔ p ≠ none)
    ∧ (∀ other : PtrState,
        init_clone other p = none ↔ (other = none ∨ p ≠ none))
    ∧ ∀ ops : List PtrOp, Disciplined ops → runOps none ops = some none := by
  refine ⟨?_, ?_, ?_, ?_⟩
  · cases p <;> simp [free]
  · intro fresh; cases p <;> simp [init_malloc]
  · intro other; cases other <;> cases p <;> simp [init_clone]
  · intro ops hd
    induction hd with
    | nil => rfl
    | malloc fresh rest hr ih =>
        simpa [runOps, step, init_malloc, free] using ih
    | clone buf rest hr ih =>
        simpa [runOps, step, init_clone, free] using ih

/-- C8 witness: one malloc/free lifecycle runs with no assertion. -/
theorem data_ptr_assert_guards_witness :
    Disciplined [PtrOp.mallocOp 5, PtrOp.freeOp]
    ∧ runOps none [PtrOp.mallocOp 5, PtrOp.freeOp] = some none :=
  ⟨Disciplined.malloc 5 [] Disciplined.nil,
   (data_ptr_assert_guards none).2.2.2 _
     (Disciplined.malloc 5 [] Disciplined.nil)⟩

end DataPtr

namespace WriteRow

/-- C10: whenever write_row returns without crashing a guarantee, the
accumulated metadata change is joined into the shared table metadata
view exactly on the paths that return true: every false return happens
before table_sl_view->join(md) is reached. -/
theorem write_row_join_iff_success (e : Env) (r j : Bool)
    (h : write_row e = some (r, j)) : j = r := by
  obtain ⟨a1, a2, a3, a4, a5, a6, a7, a8, a9, a10, a11, a12, a13, a14⟩ := e
  simp only [write_row] at h
  cases a1 <;> cases a2 <;> cases a3 <;> cases a4 <;> simp_all <;>
    split_ifs at h <;> simp_all

/-- C10 witness: the all-checks-pass update path returns true and
reaches the join. -/
theorem write_row_join_iff_success_witness :
    write_row exampleEnv = some (true, true) ∧ (true : Bool) = true :=
  ⟨by decide, write_row_join_iff_success exampleEnv true true (by decide)⟩

end WriteRow

namespace TableConfig

/-- Parsing back a printed name list recovers it element by element. -/
theorem convertEach_map_name (l : List String) :
    convertEach convert_name_from_datum (l.map convert_name_to_datum)
      = some l := by
  induction l with
  | nil => rfl
  | cons s rest ih =>
      simp [convertEach, convert_name_from_datum, convert_name_to_datum, ih]

/-- The director loop succeeds when the replica set has no duplicates,
the directors are distinct, all of them replicas, and none of them
already seen. -/
theorem directorsCheck_true (replica_names : List String)
    (hnodup : replica_names.Nodup) :
    ∀ (ds seen : List String), ds.Nodup →
      (∀ d ∈ ds, d ∈ replica_names) →
      (∀ d ∈ ds, seen.contains d = false) →
      directorsCheck replica_names seen ds = true := by
  intro ds
  induction ds with
  | nil => intro seen _ _ _; rfl
  | cons d rest ih =>
      intro seen hnd hsub hseen
      rw [directorsCheck]
      have hc : replica_names.count d = 1 :=
        List.count_eq_one_of_mem hnodup (hsub d (List.mem_cons_self d rest))
      rw [if_neg (by simp [hc])]
      rw [if_neg (by rw [hseen d (List.mem_cons_self d rest)]; simp)]
      apply ih (d :: seen) (List.Nodup.of_cons hnd)
      · intro x hx; exact hsub x (List.mem_cons_of_mem d hx)
      · intro x hx
        have hxd : x ≠ d := by
          intro heq
          rw [heq] at hx
          exact (List.nodup_cons.mp hnd).1 hx
        have hxs := hseen x (List.mem_cons_of_mem d hx)
        simp [hxd]
        simpa using hxs

/-- C9: converting a well-formed shard to a datum and back succeeds and
recovers the shard.  Well-formed: the replica set is represented by its
strictly sorted element list (the std::set invariant) and is non-empty,
the director list is non-empty and duplicate-free, and every director is
a replica. -/
theorem shard_roundtrip (shard : Shard)
    (hsorted : shard.replica_names.Sorted (fun a b => a < b))
    (hrep : shard.replica_names ≠ [])
    (hdirne : shard.director_names ≠ [])
    (hdirnodup : shard.director_names.Nodup)
    (hsub : ∀ d ∈ shard.director_names, d ∈ shard.replica_names) :
    convert_table_config_shard_from_datum
      (convert_table_config_shard_to_datum shard) = some shard := by
  obtain ⟨R, D⟩ := shard
  simp only at hsorted hrep hdirne hdirnodup hsub
  have hRnodup : R.Nodup := hsorted.nodup
  have hRle : R.Sorted (fun a b => a ≤ b) :=
    List.Pairwise.imp (fun h => le_of_lt h) hsorted
  have hsorteq : R.insertionSort (fun a b => a ≤ b) = R :=
    hRle.insertionSort_eq
  have hdc : directorsCheck R [] D = true := by
    apply directorsCheck_true R hRnodup D [] hdirnodup hsub
    intro d _
    rfl
  have hget1 : converterGet
      [("replicas", Datum.arr (R.map convert_name_to_datum)),
       ("directors", Datum.arr (D.map convert_name_to_datum))] "replicas"
      = some (Datum.arr (R.map convert_name_to_datum)) := rfl
  have hget2 : converterGet
      [("replicas", Datum.arr (R.map convert_name_to_datum)),
       ("directors", Datum.arr (D.map convert_name_to_datum))] "directors"
      = some (Datum.arr (D.map convert_name_to_datum)) := rfl
  have hkeys : check_no_extra_keys
      [("replicas", Datum.arr (R.map convert_name_to_datum)),
       ("directors", Datum.arr (D.map convert_name_to_datum))] = true := rfl
  simp only [convert_table_config_shard_to_datum, convert_set_to_datum,
    convert_vector_to_datum,
    convert_table_config_shard_from_datum, converterInit, hget1, hget2,
    convert_set_from_datum, convert_vector_from_datum, Datum.isArr,
    hkeys, convertEach_map_name, hsorteq, hdc]
  simp [hRnodup, hrep, hdirne, hdc]

/-- C9 witness: the shard with replicas a, b and sole director a. -/
theorem shard_roundtrip_witness :
    (exampleShard.replica_names.Sorted (fun a b => a < b)
      ∧ exampleShard.replica_names ≠ []
      ∧ exampleShard.director_names ≠ []
      ∧ exampleShard.director_names.Nodup
      ∧ ∀ d ∈ exampleShard.director_names, d ∈ exampleShard.replica_names)
    ∧ convert_table_config_shard_from_datum
        (convert_table_config_shard_to_datum exampleShard)
        = some exampleShard :=
  ⟨⟨by
      simp only [exampleShard, List.sorted_cons, List.mem_singleton,
        List.sorted_singleton, and_true, forall_eq]
      rw [String.lt_iff_toList_lt]
      decide,
    by decide, by decide, by decide, by decide⟩,
   shard_roundtrip exampleShard
     (by
       simp only [exampleShard, List.sorted_cons, List.mem_singleton,
         List.sorted_singleton, and_true, forall_eq]
       rw [String.lt_iff_toList_lt]
       decide)
     (by decide) (by decide) (by decide) (by decide)⟩

end TableConfig
